import Mathlib

/-!
# Hub resolver (`cmd/hubresolver/main.go`)

A shallow embedding of the Tekton hub resolver and proofs about its
parameter validation, its start-up URL pattern, its lookup request and the
decoding of the hub's answer.

Modelling conventions.

* Go `string` values are Lean `String`s; a `[]byte` obtained from a string is
  the list of its UTF-8 bytes.  A response body is modelled as text, that is,
  as a body that is valid UTF-8.
* `map[string]string` is an association list read with `List.lookup`; the two
  result index `v, ok := m[k]` is the `Option` returned by the lookup, the one
  result index `m[k]` defaults to the empty string.
* A Go `error` result is `Option GoError` (`none` is `nil`); a pair of results
  `(x, err)` stays a pair, so that "both" and "neither" remain expressible.
* The `context.Context` argument of the resolver methods is never read by the
  program and is left out.
* The network is an explicit argument: a function from the requested address
  to what `http.Get` and `io.ReadAll` give back.
-/

namespace HubResolver

/-! ## Errors -/

/-- Go error values that occur in the program: `errors.New`, `fmt.Errorf` with
one `%w` operand, the two error types of `encoding/json`, and errors handed
over by `net/http` and `io`. -/
inductive GoError where
  /-- The value of `errors.New(text)`. -/
  | new (text : String)
  /-- The value of `fmt.Errorf(format, err)` where `format` ends in `%w`: it wraps `err`. -/
  | errorf (format : String) (wrapped : GoError)
  /-- A `*json.SyntaxError`. -/
  | jsonSyntaxError
  /-- A `*json.UnmarshalTypeError` with its `Value` and `Type` fields. -/
  | jsonUnmarshalTypeError (value : String) (goType : String)
  /-- An error produced by the transport or by reading the body. -/
  | external (detail : String)
  deriving DecidableEq, Repr

/-- The error wrapped by an error, as `errors.Unwrap` gives it. -/
def GoError.Unwrap : GoError → Option GoError
  | .errorf _ e => some e
  | _ => none

/-! ## Strings, maps and formatting -/

/-- Request parameters: `map[string]string`. -/
abbrev Params := List (String × String)

/-- The two result index expression `v, ok := params[key]`. -/
def Params.index (params : Params) (key : String) : Option String :=
  List.lookup key params

/-- The one result index expression `params[key]`: the zero value when absent. -/
def Params.at (params : Params) (key : String) : String :=
  (params.index key).getD ""

/-- Go `strings.HasSuffix`. -/
def HasSuffix (s suffix : String) : Bool :=
  suffix.toList.isSuffixOf s.toList

/-- The text of the extra-operand report that `fmt` appends when operands are left over. -/
def extraOperands : List String → List Char
  | [] => []
  | args => "%!(EXTRA ".toList ++ (", ".intercalate (args.map fun a => "string=" ++ a)).toList ++ [')']

/-- The formatting loop of `fmt.Sprintf` on string operands.  Modelled are the
verbs `%s` and `%v`, the escape `%%`, a missing operand, a verb that is not
defined for strings and left-over operands; flags, widths, argument indexes
and the verbs `q`, `x`, `X`, `T`, `p` are not.  The two patterns of this
program only hold `%s`. -/
def sprintfLoop : List Char → List String → List Char
  | [], args => extraOperands args
  | ['%'], args => "%!(NOVERB)".toList ++ extraOperands args
  | '%' :: '%' :: format, args => '%' :: sprintfLoop format args
  | '%' :: verb :: format, [] =>
      ['%', '!', verb] ++ "(MISSING)".toList ++ sprintfLoop format []
  | '%' :: verb :: format, a :: args =>
      (if verb = 's' ∨ verb = 'v' then a.toList
       else ['%', '!', verb] ++ "(string=".toList ++ a.toList ++ [')'])
        ++ sprintfLoop format args
  | c :: format, args => c :: sprintfLoop format args

/-- Go `fmt.Sprintf(format, args...)` for string operands. -/
def Sprintf (format : String) (args : List String) : String :=
  String.mk (sprintfLoop format.toList args)

/-! ## Start-up -/

def defaultHubURL : String := "https://api.hub.tekton.dev/v1/resource/Tekton/%s/%s/%s/yaml"

def yamlEndpoint : String := "v1/resource/Tekton/%s/%s/%s/yaml"

/-- The resolver value: `type resolver struct { hubURL string }`. -/
structure resolver where
  hubURL : String
  deriving DecidableEq, Repr

/-- What `main` has done when it hands over to the controller: the line it
printed and the resolver it built. -/
structure Startup where
  stdout : String
  resolver : resolver
  deriving DecidableEq, Repr

/-- The body of `main` up to the call of `sharedmain.Main`.  The argument is
the value of `os.Getenv("HUB_API")`, which is empty when the variable is unset. -/
def main (HUB_API : String) : Startup :=
  let apiURL := HUB_API
  let hubURL :=
    if apiURL = "" then
      defaultHubURL
    else
      let apiURL := if !HasSuffix apiURL "/" then apiURL ++ "/" else apiURL
      apiURL ++ yamlEndpoint
  { stdout := "RUNNING WITH HUB URL PATTERN: " ++ hubURL ++ "\n"
    resolver := { hubURL := hubURL } }

/-! ## The resolver methods -/

/-- The method `Initialize`: nothing to set up. -/
def Initialize (_r : resolver) : Option GoError := none

/-- The method `GetName`. -/
def GetName (_r : resolver) : String := "Hub"

/-- The method `GetSelector`.  The label key `common.LabelKeyResolverType` is
declared in another module and is taken as an argument. -/
def GetSelector (LabelKeyResolverType : String) (_r : resolver) : List (String × String) :=
  [(LabelKeyResolverType, "hub")]

/-- The method `ValidateParams`. -/
def ValidateParams (_r : resolver) (params : Params) : Option GoError :=
  match params.index "kind" with
  | none => some (GoError.new "must include kind param")
  | some kind =>
    if kind ≠ "task" ∧ kind ≠ "pipeline" then
      some (GoError.new "kind param must be task or pipeline")
    else
      match params.index "name" with
      | none => some (GoError.new "must include name param")
      | some _ =>
        match params.index "version" with
        | none => some (GoError.new "must include version param")
        | some _ => none

/-! ## JSON text

The decoder of `encoding/json` first checks the whole input against the JSON
grammar and only then stores values.  The grammar check is modelled by a
lexer and a pushdown recogniser that builds the value tree; both recurse on
the input itself, so they are total. -/

/-- A JSON value.  A number keeps its literal text. -/
inductive JValue where
  | null
  | bool (b : Bool)
  | number (literal : String)
  | string (s : String)
  | array (elems : List JValue)
  | object (members : List (String × JValue))
  deriving Repr

/-- One unit of a string literal: a character (written literally or by a two
character escape) or a `\uXXXX` escape with its 16 bit value. -/
inductive StrUnit where
  | char (c : Char)
  | u (code : Nat)
  deriving DecidableEq, Repr

inductive Token where
  | lbrace | rbrace | lbrack | rbrack | colon | comma
  | str (s : String)
  | num (literal : String)
  | lit (v : JValue)
  deriving Repr

/-- JSON insignificant white space. -/
def isSpace (c : Char) : Bool :=
  c = ' ' || c = '\t' || c = '\r' || c = '\n'

def isDigit (c : Char) : Bool :=
  '0' ≤ c && c ≤ '9'

/-- The characters a number literal is made of. -/
def isNumChar (c : Char) : Bool :=
  isDigit c || c = '-' || c = '+' || c = '.' || c = 'e' || c = 'E'

def hexVal (c : Char) : Option Nat :=
  if '0' ≤ c ∧ c ≤ '9' then some (c.toNat - 48)
  else if 'a' ≤ c ∧ c ≤ 'f' then some (c.toNat - 87)
  else if 'A' ≤ c ∧ c ≤ 'F' then some (c.toNat - 55)
  else none

/-- The character a two character escape stands for. -/
def simpleEscape (c : Char) : Option Char :=
  if c = '"' then some '"'
  else if c = '\\' then some '\\'
  else if c = '/' then some '/'
  else if c = 'b' then some (Char.ofNat 8)
  else if c = 'f' then some (Char.ofNat 12)
  else if c = 'n' then some '\n'
  else if c = 'r' then some '\r'
  else if c = 't' then some '\t'
  else none

def isSurrogate (code : Nat) : Bool :=
  0xD800 ≤ code && code < 0xE000

/-- The text of a string literal from its units, as `unquote` computes it: a
high surrogate escape directly followed by a low surrogate escape is one
character, any other surrogate escape becomes U+FFFD. -/
def decodeUnits : List StrUnit → List Char
  | [] => []
  | StrUnit.char c :: rest => c :: decodeUnits rest
  | StrUnit.u code :: rest =>
    let tail := decodeUnits rest
    if isSurrogate code then
      match rest with
      | StrUnit.u low :: rest2 =>
        if code < 0xDC00 ∧ 0xDC00 ≤ low ∧ low < 0xE000 then
          Char.ofNat (0x10000 + (code - 0xD800) * 0x400 + (low - 0xDC00)) :: decodeUnits rest2
        else
          Char.ofNat 0xFFFD :: tail
      | _ => Char.ofNat 0xFFFD :: tail
    else
      Char.ofNat code :: tail

def dropDigits : List Char → List Char
  | c :: cs => if isDigit c then dropDigits cs else c :: cs
  | [] => []

/-- The exponent part of a number, or nothing. -/
def validExp : List Char → Bool
  | [] => true
  | e :: rest =>
    (e = 'e' || e = 'E') &&
      (match rest with
       | '+' :: d :: ds => isDigit d && (dropDigits ds).isEmpty
       | '-' :: d :: ds => isDigit d && (dropDigits ds).isEmpty
       | d :: ds => isDigit d && (dropDigits ds).isEmpty
       | [] => false)

/-- The fraction part of a number, or nothing, then the exponent part. -/
def validFrac : List Char → Bool
  | '.' :: d :: ds => isDigit d && validExp (dropDigits ds)
  | '.' :: [] => false
  | cs => validExp cs

/-- The number grammar: `-? (0 | [1-9][0-9]*) (. [0-9]+)? ([eE] [+-]? [0-9]+)?`. -/
def validNumber (cs : List Char) : Bool :=
  let cs := match cs with
    | '-' :: rest => rest
    | _ => cs
  match cs with
  | '0' :: rest => validFrac rest
  | d :: rest => isDigit d && validFrac (dropDigits rest)
  | [] => false

/-- Where the lexer is: between tokens, inside a string literal (with the
units read so far, last first) or inside a number (characters last first). -/
inductive LexMode where
  | top
  | str (units : List StrUnit)
  | num (chars : List Char)

def numToken (chars : List Char) : Option Token :=
  if validNumber chars.reverse then some (Token.num (String.mk chars.reverse)) else none

/-- Puts a token in front of the tokens of the rest, when there are any. -/
def consTok (t : Option Token) (rest : Option (List Token)) : Option (List Token) :=
  match t, rest with
  | some t, some ts => some (t :: ts)
  | _, _ => none

/-- The lexer.  A number ends at the first character that is not a number
character; the grammar lets only white space, a comma or a closing bracket
follow a number, so anything else is rejected right there. -/
def lex : LexMode → List Char → Option (List Token)
  | LexMode.top, [] => some []
  | LexMode.top, 't' :: 'r' :: 'u' :: 'e' :: cs =>
      consTok (some (Token.lit (JValue.bool true))) (lex LexMode.top cs)
  | LexMode.top, 'f' :: 'a' :: 'l' :: 's' :: 'e' :: cs =>
      consTok (some (Token.lit (JValue.bool false))) (lex LexMode.top cs)
  | LexMode.top, 'n' :: 'u' :: 'l' :: 'l' :: cs =>
      consTok (some (Token.lit JValue.null)) (lex LexMode.top cs)
  | LexMode.top, c :: cs =>
      if isSpace c then lex LexMode.top cs
      else if c = '\x7b' then consTok (some Token.lbrace) (lex LexMode.top cs)
      else if c = '\x7d' then consTok (some Token.rbrace) (lex LexMode.top cs)
      else if c = '[' then consTok (some Token.lbrack) (lex LexMode.top cs)
      else if c = ']' then consTok (some Token.rbrack) (lex LexMode.top cs)
      else if c = ':' then consTok (some Token.colon) (lex LexMode.top cs)
      else if c = ',' then consTok (some Token.comma) (lex LexMode.top cs)
      else if c = '"' then lex (LexMode.str []) cs
      else if c = '-' || isDigit c then lex (LexMode.num [c]) cs
      else none
  | LexMode.str _, [] => none
  | LexMode.str units, '"' :: cs =>
      consTok (some (Token.str (String.mk (decodeUnits units.reverse)))) (lex LexMode.top cs)
  | LexMode.str units, '\\' :: 'u' :: a :: b :: c :: d :: cs =>
      match hexVal a, hexVal b, hexVal c, hexVal d with
      | some a, some b, some c, some d =>
          lex (LexMode.str (StrUnit.u (((a * 16 + b) * 16 + c) * 16 + d) :: units)) cs
      | _, _, _, _ => none
  | LexMode.str _, '\\' :: [] => none
  | LexMode.str units, '\\' :: e :: cs =>
      match simpleEscape e with
      | some c => lex (LexMode.str (StrUnit.char c :: units)) cs
      | none => none
  | LexMode.str units, c :: cs =>
      if c.toNat < 0x20 then none else lex (LexMode.str (StrUnit.char c :: units)) cs
  | LexMode.num chars, [] => consTok (numToken chars) (some [])
  | LexMode.num chars, c :: cs =>
      if isNumChar c then lex (LexMode.num (c :: chars)) cs
      else if isSpace c then consTok (numToken chars) (lex LexMode.top cs)
      else if c = ',' then
        consTok (numToken chars) (consTok (some Token.comma) (lex LexMode.top cs))
      else if c = ']' then
        consTok (numToken chars) (consTok (some Token.rbrack) (lex LexMode.top cs))
      else if c = '\x7d' then
        consTok (numToken chars) (consTok (some Token.rbrace) (lex LexMode.top cs))
      else none

/-- An open container on the recogniser's stack, entries last first.  An
object remembers the key whose value is being read. -/
inductive Frame where
  | arr (elems : List JValue)
  | obj (members : List (String × JValue)) (key : Option String)

/-- What the recogniser expects next. -/
inductive Expect where
  /-- A value. -/
  | value
  /-- A value or the end of the array: right after `[`. -/
  | valueOrEnd
  /-- A key or the end of the object: right after the opening brace. -/
  | keyOrEnd
  /-- A key: after a comma inside an object. -/
  | key
  /-- The colon after a key. -/
  | colon
  /-- A comma or the end of the innermost container. -/
  | more
  /-- Nothing: the top level value is complete. -/
  | done (v : JValue)

/-- The nesting limit of the scanner of `encoding/json`. -/
def maxNestingDepth : Nat := 10000

/-- A value is complete: it goes into the innermost open container, or is the result. -/
def complete (v : JValue) : List Frame → Option (Expect × List Frame)
  | [] => some (Expect.done v, [])
  | Frame.arr elems :: stack => some (Expect.more, Frame.arr (v :: elems) :: stack)
  | Frame.obj members (some k) :: stack =>
      some (Expect.more, Frame.obj ((k, v) :: members) none :: stack)
  | Frame.obj _ none :: _ => none

/-- A value starts with token `t`. -/
def startValue (t : Token) (stack : List Frame) : Option (Expect × List Frame) :=
  match t with
  | Token.str s => complete (JValue.string s) stack
  | Token.num n => complete (JValue.number n) stack
  | Token.lit v => complete v stack
  | Token.lbrace =>
      if stack.length < maxNestingDepth then some (Expect.keyOrEnd, Frame.obj [] none :: stack)
      else none
  | Token.lbrack =>
      if stack.length < maxNestingDepth then some (Expect.valueOrEnd, Frame.arr [] :: stack)
      else none
  | _ => none

/-- A key starts with token `t`. -/
def startKey (t : Token) (stack : List Frame) : Option (Expect × List Frame) :=
  match t, stack with
  | Token.str k, Frame.obj members none :: stack =>
      some (Expect.colon, Frame.obj members (some k) :: stack)
  | _, _ => none

/-- One step of the recogniser. -/
def step (e : Expect) (stack : List Frame) (t : Token) : Option (Expect × List Frame) :=
  match e with
  | Expect.value => startValue t stack
  | Expect.valueOrEnd =>
      match t, stack with
      | Token.rbrack, Frame.arr elems :: stack => complete (JValue.array elems.reverse) stack
      | _, _ => startValue t stack
  | Expect.keyOrEnd =>
      match t, stack with
      | Token.rbrace, Frame.obj members none :: stack =>
          complete (JValue.object members.reverse) stack
      | _, _ => startKey t stack
  | Expect.key => startKey t stack
  | Expect.colon =>
      match t with
      | Token.colon => some (Expect.value, stack)
      | _ => none
  | Expect.more =>
      match t, stack with
      | Token.comma, Frame.arr elems :: stack => some (Expect.value, Frame.arr elems :: stack)
      | Token.comma, Frame.obj members none :: stack =>
          some (Expect.key, Frame.obj members none :: stack)
      | Token.rbrack, Frame.arr elems :: stack => complete (JValue.array elems.reverse) stack
      | Token.rbrace, Frame.obj members none :: stack =>
          complete (JValue.object members.reverse) stack
      | _, _ => none
  | Expect.done _ => none

/-- Runs the recogniser over the tokens; the input is well formed when it
ends with the top level value complete. -/
def run : Expect → List Frame → List Token → Option JValue
  | Expect.done v, _, [] => some v
  | _, _, [] => none
  | e, stack, t :: ts =>
      match step e stack t with
      | some (e2, stack2) => run e2 stack2 ts
      | none => none

/-- The value a JSON text denotes; `none` when the text is not well formed. -/
def parseJSON (text : String) : Option JValue :=
  match lex LexMode.top text.toList with
  | some tokens => run Expect.value [] tokens
  | none => none

/-! ## Decoding into `hubResponse` -/

/-- The struct `dataResponse`, one field tagged `json:"yaml"`. -/
structure dataResponse where
  YAML : String
  deriving DecidableEq, Repr

/-- The struct `hubResponse`, one field tagged `json:"data"`. -/
structure hubResponse where
  Data : dataResponse
  deriving DecidableEq, Repr

/-- How a member key selects a struct field: the names are equal up to the
case of ASCII letters.  For the names `data` and `yaml` this is what the
decoder's exact-then-folded lookup amounts to, since no letter outside ASCII
folds to one of theirs. -/
def equalFold (key name : String) : Bool :=
  key.toList.map Char.toLower == name.toList.map Char.toLower

/-- The `Value` text of an `UnmarshalTypeError` for a JSON value. -/
def describe : JValue → String
  | JValue.null => "null"
  | JValue.bool _ => "bool"
  | JValue.number _ => "number"
  | JValue.string _ => "string"
  | JValue.array _ => "array"
  | JValue.object _ => "object"

/-- The decoder's `saveError`: only the first error is kept. -/
def saveError (saved : Option GoError) (err : GoError) : Option GoError :=
  match saved with
  | some e => some e
  | none => some err

/-- Stores a JSON value into a Go `string`: a string is stored, `null` leaves
the destination alone, anything else is a type error and leaves it alone. -/
def storeString (dst : String) (saved : Option GoError) (v : JValue) :
    String × Option GoError :=
  match v with
  | JValue.null => (dst, saved)
  | JValue.string s => (s, saved)
  | v => (dst, saveError saved (GoError.jsonUnmarshalTypeError (describe v) "string"))

/-- One member of an object stored into a `dataResponse`: a key that selects
`YAML` stores its value there, any other member is skipped. -/
def storeDataMember (acc : dataResponse × Option GoError) (member : String × JValue) :
    dataResponse × Option GoError :=
  if equalFold member.1 "yaml" then
    let r := storeString acc.1.YAML acc.2 member.2
    ({ YAML := r.1 }, r.2)
  else acc

/-- Stores a JSON value into a `dataResponse`. -/
def storeData (dst : dataResponse) (saved : Option GoError) (v : JValue) :
    dataResponse × Option GoError :=
  match v with
  | JValue.null => (dst, saved)
  | JValue.object members => members.foldl storeDataMember (dst, saved)
  | v => (dst, saveError saved (GoError.jsonUnmarshalTypeError (describe v) "main.dataResponse"))

/-- One member of an object stored into a `hubResponse`. -/
def storeHubMember (acc : hubResponse × Option GoError) (member : String × JValue) :
    hubResponse × Option GoError :=
  if equalFold member.1 "data" then
    let r := storeData acc.1.Data acc.2 member.2
    ({ Data := r.1 }, r.2)
  else acc

/-- Stores a JSON value into a `hubResponse`. -/
def storeHub (dst : hubResponse) (saved : Option GoError) (v : JValue) :
    hubResponse × Option GoError :=
  match v with
  | JValue.null => (dst, saved)
  | JValue.object members => members.foldl storeHubMember (dst, saved)
  | v => (dst, saveError saved (GoError.jsonUnmarshalTypeError (describe v) "main.hubResponse"))

/-- Go `json.Unmarshal(body, &hr)`: the updated `hr` and the error.  Input
that is not well formed leaves `hr` untouched. -/
def Unmarshal (body : String) (hr : hubResponse) : hubResponse × Option GoError :=
  match parseJSON body with
  | none => (hr, some GoError.jsonSyntaxError)
  | some v => storeHub hr none v

/-! ## Resolve -/

/-- The struct `hubResolvedResource`. -/
structure hubResolvedResource where
  data : List UInt8
  deriving DecidableEq, Repr

/-- The method `Data`: it returns the stored bytes.  The source comment speaks
of a hard-coded pipeline; the bytes are the ones `Resolve` stored. -/
def hubResolvedResource.Data (rr : hubResolvedResource) : List UInt8 :=
  rr.data

/-- The method `Annotations`: it returns the nil map, which has no entry. -/
def hubResolvedResource.Annotations (_rr : hubResolvedResource) : List (String × String) :=
  []

/-- The conversion `[]byte(s)`. -/
def bytes (s : String) : List UInt8 :=
  s.toUTF8.data.toList

/-- An HTTP response as far as `Resolve` can observe it: the status code and
what `io.ReadAll(resp.Body)` returns. -/
structure Response where
  StatusCode : Nat
  Body : Except GoError String

/-- The remote side: what `http.Get(url)` returns. -/
abbrev Remote := String → Except GoError Response

/-- The observable actions of `Resolve`. -/
inductive Action where
  | get (url : String)
  | readAll
  | close
  deriving DecidableEq, Repr

/-- The two results of `Resolve` together with the actions it performed. -/
structure Resolved where
  actions : List Action
  resource : Option hubResolvedResource
  err : Option GoError
  deriving DecidableEq, Repr

/-- Go `fmt.Errorf(format, err)` with one `%w` operand. -/
def Errorf (format : String) (err : GoError) : GoError :=
  GoError.errorf format err

/-- The method `Resolve`.  As in the source, the format is the constant
`defaultHubURL` and the receiver is not read.  The deferred `resp.Body.Close()`
runs on every return after a successful request. -/
def Resolve (remote : Remote) (_r : resolver) (params : Params) : Resolved :=
  let url := Sprintf defaultHubURL [params.at "kind", params.at "name", params.at "version"]
  match remote url with
  | Except.error err =>
      { actions := [Action.get url]
        resource := none
        err := some (Errorf "error requesting resource from hub: %w" err) }
  | Except.ok resp =>
      match resp.Body with
      | Except.error err =>
          { actions := [Action.get url, Action.readAll, Action.close]
            resource := none
            err := some (Errorf "error reading response body: %w" err) }
      | Except.ok body =>
          let hr : hubResponse := { Data := { YAML := "" } }
          match Unmarshal body hr with
          | (_, some err) =>
              { actions := [Action.get url, Action.readAll, Action.close]
                resource := none
                err := some (Errorf "error unmarshalling json response: %w" err) }
          | (hr, none) =>
              { actions := [Action.get url, Action.readAll, Action.close]
                resource := some { data := bytes hr.Data.YAML }
                err := none }

/-- The value of the local variable `url` of `Resolve`. -/
def requestURL (params : Params) : String :=
  Sprintf defaultHubURL [params.at "kind", params.at "name", params.at "version"]

/-- The zero value of `hubResponse`, which `Resolve` decodes into. -/
def zeroHubResponse : hubResponse :=
  { Data := { YAML := "" } }

/-! ## Shapes the decoder rejects

These predicates describe, on the value tree alone, the well formed bodies
for which decoding into `hubResponse` reports a type error. -/

/-- A value that is neither a string nor null. -/
def notStringOrNull : JValue → Bool
  | JValue.null => false
  | JValue.string _ => false
  | _ => true

/-- A value that does not fit `dataResponse`: it is neither an object nor
null, or it is an object with a member selecting `yaml` whose value is
neither a string nor null. -/
def dataMismatch : JValue → Bool
  | JValue.null => false
  | JValue.object members =>
      members.any fun m => equalFold m.1 "yaml" && notStringOrNull m.2
  | _ => true

/-- A value that does not fit `hubResponse`: it is neither an object nor
null, or it is an object with a member selecting `data` whose value does not
fit `dataResponse`. -/
def shapeMismatch : JValue → Bool
  | JValue.null => false
  | JValue.object members =>
      members.any fun m => equalFold m.1 "data" && dataMismatch m.2
  | _ => true

/-! ## The text the decoder extracts

These functions describe, on the value tree alone, the yaml text of a well
formed body: the members are read in order and the last string found under a
member selecting `yaml` inside an object under a member selecting `data`
stays. -/

/-- A value that is a string. -/
def isString : JValue → Bool
  | JValue.string _ => true
  | _ => false

/-- The yaml text after one member of a data object: the member's string when
it selects `yaml` and holds a string, the text so far otherwise. -/
def yamlStep (cur : String) (m : String × JValue) : String :=
  if equalFold m.1 "yaml" then
    match m.2 with
    | JValue.string s => s
    | _ => cur
  else cur

/-- The yaml text after a value found under `data`. -/
def dataText (cur : String) : JValue → String
  | JValue.object members => members.foldl yamlStep cur
  | _ => cur

/-- The yaml text after one member of the top level object. -/
def dataStep (cur : String) (m : String × JValue) : String :=
  if equalFold m.1 "data" then dataText cur m.2 else cur

/-- The yaml text of a body's value; empty when there is none. -/
def yamlText : JValue → String
  | JValue.object members => members.foldl dataStep ""
  | _ => ""

/-- A value found under `data` that holds a yaml string. -/
def dataHasYamlString : JValue → Bool
  | JValue.object members => members.any fun m => equalFold m.1 "yaml" && isString m.2
  | _ => false

/-- A body's value in which a yaml string is present. -/
def hasYamlString : JValue → Bool
  | JValue.object members => members.any fun m => equalFold m.1 "data" && dataHasYamlString m.2
  | _ => false

/-- The parameters kind=task, name=demo, version=0.1. -/
def demoParams : Params :=
  [("kind", "task"), ("name", "demo"), ("version", "0.1")]

/-- A remote side that answers the request for task demo 0.1 at the default
hub with the given status code and body and refuses every other request. -/
def demoRemote (status : Nat) (body : String) : Remote :=
  fun url =>
    if url = "https://api.hub.tekton.dev/v1/resource/Tekton/task/demo/0.1/yaml" then
      Except.ok { StatusCode := status, Body := Except.ok body }
    else
      Except.error (GoError.external "connection refused")

/-- The addresses requested by `http.Get`, in order. -/
def Resolved.requested (out : Resolved) : List String :=
  out.actions.filterMap fun a =>
    match a with
    | Action.get url => some url
    | _ => none

/-! ## Parameter validation -/

/-- Acceptance by `ValidateParams`, in terms of what the map holds. -/
theorem validate_accepts (r : resolver) (p : Params) :
    ValidateParams r p = none ↔
      (p.index "kind" = some "task" ∨ p.index "kind" = some "pipeline") ∧
        (p.index "name").isSome = true ∧ (p.index "version").isSome = true := by
  unfold ValidateParams
  cases hk : p.index "kind" with
  | none => simp
  | some kind =>
    cases hn : p.index "name" with
    | none => by_cases h : kind ≠ "task" ∧ kind ≠ "pipeline" <;> simp [h]
    | some name =>
      cases hv : p.index "version" with
      | none => by_cases h : kind ≠ "task" ∧ kind ≠ "pipeline" <;> simp [h]
      | some version =>
        by_cases h : kind ≠ "task" ∧ kind ≠ "pipeline"
        · simp [h]
        · simp only [h, if_false, Option.isSome_some, and_self, and_true, true_iff]
          simp only [Option.some.injEq]
          by_contra hc
          exact h ⟨fun e => hc (Or.inl e), fun e => hc (Or.inr e)⟩

/-- C1: ValidateParams returns nil exactly when kind is present with the value
task or pipeline and name and version are present; the values of name and
version are not inspected, so kind=task with an empty name and an empty
version is accepted. -/
theorem ValidateParams_nil_iff (r : resolver) (p : Params) :
    (ValidateParams r p = none ↔
      (p.index "kind" = some "task" ∨ p.index "kind" = some "pipeline") ∧
        (p.index "name").isSome = true ∧ (p.index "version").isSome = true) ∧
    (∀ name version : String,
      ValidateParams r [("kind", "task"), ("name", name), ("version", version)] = none) ∧
    ValidateParams r [("kind", "task"), ("name", ""), ("version", "")] = none := by
  refine ⟨validate_accepts r p, ?_, ?_⟩
  · intro name version
    simp [ValidateParams, Params.index, List.lookup]
  · simp [ValidateParams, Params.index, List.lookup]

/-- C2 fails as stated: in the empty mapping name is absent, yet the error
names kind, not name. -/
theorem ValidateParams_empty_reports_kind :
    Params.index [] "name" = none ∧
    ValidateParams { hubURL := defaultHubURL } [] = some (GoError.new "must include kind param") ∧
    ValidateParams { hubURL := defaultHubURL } [] ≠ some (GoError.new "must include name param") := by
  decide

/-- C2 fails as stated also when kind is present but not allowed: name is
absent and the error is the one about the value of kind. -/
theorem ValidateParams_bad_kind_hides_name :
    Params.index [("kind", "step")] "name" = none ∧
    ValidateParams { hubURL := defaultHubURL } [("kind", "step")] =
      some (GoError.new "kind param must be task or pipeline") := by
  decide

/-- C2 as amended: the checks run in the order kind, value of kind, name,
version and the first one that fails decides the error.  A mapping without
kind fails with "must include kind param"; one without name whose kind is task
or pipeline fails with "must include name param"; one without version whose
kind is task or pipeline and whose name is present fails with "must include
version param"; and a mapping that lacks any of the three keys is never
accepted. -/
theorem ValidateParams_missing (r : resolver) (p : Params) :
    (p.index "kind" = none →
      ValidateParams r p = some (GoError.new "must include kind param")) ∧
    (p.index "name" = none →
      (p.index "kind" = some "task" ∨ p.index "kind" = some "pipeline") →
      ValidateParams r p = some (GoError.new "must include name param")) ∧
    (p.index "version" = none →
      (p.index "kind" = some "task" ∨ p.index "kind" = some "pipeline") →
      (p.index "name").isSome = true →
      ValidateParams r p = some (GoError.new "must include version param")) ∧
    ((p.index "kind" = none ∨ p.index "name" = none ∨ p.index "version" = none) →
      ValidateParams r p ≠ none) := by
  refine ⟨?_, ?_, ?_, ?_⟩
  · intro hk
    simp [ValidateParams, hk]
  · intro hn hk
    rcases hk with hk | hk <;> simp [ValidateParams, hk, hn]
  · intro hv hk hn
    obtain ⟨name, hn⟩ := Option.isSome_iff_exists.mp hn
    rcases hk with hk | hk <;> simp [ValidateParams, hk, hn, hv]
  · intro h hnil
    have hacc := (validate_accepts r p).mp hnil
    rcases h with h | h | h
    · rcases hacc.1 with hk | hk <;> simp [h] at hk
    · simp [h] at hacc
    · simp [h] at hacc

/-- The amended C2 at concrete mappings, one for each of the three keys. -/
theorem ValidateParams_missing_witness :
    ValidateParams { hubURL := defaultHubURL } [("name", "demo"), ("version", "0.1")] =
      some (GoError.new "must include kind param") ∧
    ValidateParams { hubURL := defaultHubURL } [("kind", "task"), ("version", "0.1")] =
      some (GoError.new "must include name param") ∧
    ValidateParams { hubURL := defaultHubURL } [("kind", "pipeline"), ("name", "demo")] =
      some (GoError.new "must include version param") :=
  ⟨(ValidateParams_missing _ [("name", "demo"), ("version", "0.1")]).1 (by decide),
   (ValidateParams_missing _ [("kind", "task"), ("version", "0.1")]).2.1 (by decide)
     (Or.inl (by decide)),
   (ValidateParams_missing _ [("kind", "pipeline"), ("name", "demo")]).2.2.1 (by decide)
     (Or.inr (by decide)) (by decide)⟩

/-- C3: ValidateParams fails with "kind param must be task or pipeline" exactly
when kind is present with a value other than task and pipeline, whatever else
the mapping holds; so the error never comes up when kind is absent or is task
or pipeline. -/
theorem ValidateParams_invalid_kind_iff (r : resolver) (p : Params) :
    ValidateParams r p = some (GoError.new "kind param must be task or pipeline") ↔
      ∃ kind, p.index "kind" = some kind ∧ kind ≠ "task" ∧ kind ≠ "pipeline" := by
  unfold ValidateParams
  cases hk : p.index "kind" with
  | none => simp
  | some kind =>
    by_cases h : kind ≠ "task" ∧ kind ≠ "pipeline"
    · simp [h]
    · have h2 : ¬ (¬ kind = "task" ∧ ¬ kind = "pipeline") := h
      simp only [h, if_false, Option.some.injEq, exists_eq_left', h2, iff_false]
      cases hn : p.index "name" with
      | none => simp
      | some name =>
        cases hv : p.index "version" with
        | none => simp
        | some version => simp

/-! ## Name and selector -/

/-- C10: GetName returns "Hub" and GetSelector returns the mapping with the one
entry from the resolver-type label key to "hub", for every resolver value; the
results are the same for any two resolver values. -/
theorem GetName_GetSelector_constant (LabelKeyResolverType : String) (r r2 : resolver) :
    GetName r = "Hub" ∧
    GetSelector LabelKeyResolverType r = [(LabelKeyResolverType, "hub")] ∧
    (GetSelector LabelKeyResolverType r).length = 1 ∧
    List.lookup LabelKeyResolverType (GetSelector LabelKeyResolverType r) = some "hub" ∧
    GetName r = GetName r2 ∧
    GetSelector LabelKeyResolverType r = GetSelector LabelKeyResolverType r2 := by
  refine ⟨rfl, rfl, rfl, ?_, rfl, rfl⟩
  simp [GetSelector, List.lookup]

/-! ## The URL pattern computed at start-up -/

/-- `HasSuffix` is the suffix relation on the characters. -/
theorem hasSuffix_iff (s suffix : String) :
    HasSuffix s suffix = true ↔ suffix.toList <:+ s.toList := by
  simp [HasSuffix]

/-- A string to which `/` was appended ends in `/`. -/
theorem hasSuffix_append_slash (b : String) : HasSuffix (b ++ "/") "/" = true := by
  rw [hasSuffix_iff]
  exact ⟨b.toList, rfl⟩

/-- Appending `/` to a string that does not end in `/` gives a string that
does not end in `//`. -/
theorem not_hasSuffix_two_slashes (b : String) (h : HasSuffix b "/" = false) :
    HasSuffix (b ++ "/") "//" = false := by
  rw [Bool.eq_false_iff] at h ⊢
  intro h2
  apply h
  rw [hasSuffix_iff] at h2 ⊢
  obtain ⟨t, ht⟩ := h2
  refine ⟨t, ?_⟩
  have e : (t ++ ['/']) ++ ['/'] = b.toList ++ ['/'] := by
    simpa using ht
  exact (List.append_left_inj ['/']).mp e

/-- A string with something appended is not empty when the appended part is not. -/
theorem append_slash_ne_empty (b : String) : b ++ "/" ≠ "" := by
  intro h
  have h2 := congrArg String.length h
  simp only [String.length_append] at h2
  have h3 : ("/" : String).length = 1 := by decide
  have h4 : ("" : String).length = 0 := by decide
  omega

/-- The pattern `main` stores in the resolver, by cases on the override. -/
theorem main_hubURL_cases (b : String) :
    (b = "" → (main b).resolver.hubURL = defaultHubURL) ∧
    (b ≠ "" → HasSuffix b "/" = true → (main b).resolver.hubURL = b ++ yamlEndpoint) ∧
    (b ≠ "" → HasSuffix b "/" = false →
      (main b).resolver.hubURL = b ++ "/" ++ yamlEndpoint) := by
  refine ⟨?_, ?_, ?_⟩
  · intro h
    simp [main, h]
  · intro h hs
    simp [main, h, hs]
  · intro h hs
    simp [main, h, hs]

/-- C8: for a non-empty base URL that does not end in "/", start-up computes
the same pattern from it as from the base URL with "/" appended (indeed the
same resolver and the same printed line), so the address requested by Resolve,
and the pattern with any three values substituted, are the same under both
settings. -/
theorem main_trailing_slash (b : String) (hne : b ≠ "") (hslash : HasSuffix b "/" = false) :
    (main b).resolver.hubURL = (main (b ++ "/")).resolver.hubURL ∧
    main b = main (b ++ "/") ∧
    (∀ kind name version : String,
      Sprintf (main b).resolver.hubURL [kind, name, version] =
        Sprintf (main (b ++ "/")).resolver.hubURL [kind, name, version]) ∧
    (∀ (remote : Remote) (params : Params),
      (Resolve remote (main b).resolver params).requested =
        (Resolve remote (main (b ++ "/")).resolver params).requested) := by
  have e : main b = main (b ++ "/") := by
    simp [main, hne, hslash, append_slash_ne_empty, hasSuffix_append_slash]
  refine ⟨by rw [e], e, ?_, ?_⟩
  · intro kind name version
    rw [e]
  · intro remote params
    rw [e]

/-- C8 at the base URL http://localhost:8080. -/
theorem main_trailing_slash_witness :
    (main "http://localhost:8080").resolver.hubURL =
      (main "http://localhost:8080/").resolver.hubURL :=
  (main_trailing_slash "http://localhost:8080" (by decide) (by decide)).1

/-- C9 fails as stated: for the base URL http://hub// the pattern is the base
URL followed by the template, and the part in front of the template ends in
two "/"; no prefix ending in exactly one "/" gives the pattern. -/
theorem main_keeps_double_slash :
    (main "http://hub//").resolver.hubURL = "http://hub//" ++ yamlEndpoint ∧
    HasSuffix "http://hub//" "//" = true ∧
    ¬ ∃ n : String, (main "http://hub//").resolver.hubURL = n ++ yamlEndpoint ∧
        HasSuffix n "/" = true ∧ HasSuffix n "//" = false := by
  refine ⟨by decide, by decide, ?_⟩
  rintro ⟨n, hn, -, h2⟩
  have e : (main "http://hub//").resolver.hubURL = "http://hub//" ++ yamlEndpoint := by decide
  rw [e] at hn
  have hd : ("http://hub//" : String).data ++ yamlEndpoint.data = n.data ++ yamlEndpoint.data := by
    have := congrArg String.data hn
    simpa using this
  have hn2 : n = "http://hub//" := by
    apply String.ext
    exact ((List.append_left_inj _).mp hd).symm
  rw [hn2] at h2
  exact absurd h2 (by decide)

/-- C9 as amended: the pattern is the default pattern when the override is
empty; for a non-empty override b it is n(b) followed by the template
"v1/resource/Tekton/%s/%s/%s/yaml", where n(b) is b itself when b ends in "/"
and b followed by "/" otherwise.  So n(b) always ends in "/", and it ends in
exactly one "/" whenever b does not end in "//". -/
theorem main_hubURL (b : String) :
    defaultHubURL = "https://api.hub.tekton.dev/v1/resource/Tekton/%s/%s/%s/yaml" ∧
    yamlEndpoint = "v1/resource/Tekton/%s/%s/%s/yaml" ∧
    (main "").resolver.hubURL = defaultHubURL ∧
    (b ≠ "" → HasSuffix b "/" = true → (main b).resolver.hubURL = b ++ yamlEndpoint) ∧
    (b ≠ "" → HasSuffix b "/" = false →
      (main b).resolver.hubURL = b ++ "/" ++ yamlEndpoint) ∧
    (b ≠ "" → ∃ n : String, (main b).resolver.hubURL = n ++ yamlEndpoint ∧
      (n = b ∨ n = b ++ "/") ∧ HasSuffix n "/" = true ∧
      (HasSuffix b "//" = false → HasSuffix n "//" = false)) := by
  refine ⟨rfl, rfl, by decide, (main_hubURL_cases b).2.1, (main_hubURL_cases b).2.2, ?_⟩
  intro hne
  cases hs : HasSuffix b "/" with
  | true =>
    exact ⟨b, (main_hubURL_cases b).2.1 hne hs, Or.inl rfl, hs, fun h => h⟩
  | false =>
    exact ⟨b ++ "/", (main_hubURL_cases b).2.2 hne hs, Or.inr rfl, hasSuffix_append_slash b,
      fun _ => not_hasSuffix_two_slashes b hs⟩

/-- The amended C9 at overrides without, with one and with two trailing "/". -/
theorem main_hubURL_witness :
    (main "http://hub").resolver.hubURL = "http://hub" ++ "/" ++ yamlEndpoint ∧
    (main "http://hub/").resolver.hubURL = "http://hub/" ++ yamlEndpoint ∧
    (main "http://hub//").resolver.hubURL = "http://hub//" ++ yamlEndpoint :=
  ⟨(main_hubURL "http://hub").2.2.2.2.1 (by decide) (by decide),
   (main_hubURL "http://hub/").2.2.2.1 (by decide) (by decide),
   (main_hubURL "http://hub//").2.2.2.1 (by decide) (by decide)⟩

/-! ## Decoding -/

/-- Storing into a string reports an error exactly when one was saved before
or the value is neither a string nor null. -/
theorem storeString_err (dst : String) (saved : Option GoError) (v : JValue) :
    (storeString dst saved v).2.isSome = (saved.isSome || notStringOrNull v) := by
  cases v <;> cases saved <;> simp [storeString, notStringOrNull, saveError]

/-- Folding the members into a `dataResponse` reports an error exactly when
one was saved before or some member selecting `yaml` does not hold a string
or null. -/
theorem foldl_storeDataMember_err (members : List (String × JValue))
    (acc : dataResponse × Option GoError) :
    (members.foldl storeDataMember acc).2.isSome =
      (acc.2.isSome || members.any fun m => equalFold m.1 "yaml" && notStringOrNull m.2) := by
  induction members generalizing acc with
  | nil => simp
  | cons m ms ih =>
    rw [List.foldl_cons, ih]
    by_cases h : equalFold m.1 "yaml" = true
    · simp [storeDataMember, h, storeString_err, Bool.or_assoc]
    · simp [storeDataMember, h]

/-- Storing into a `dataResponse` reports an error exactly when one was saved
before or the value does not fit. -/
theorem storeData_err (dst : dataResponse) (saved : Option GoError) (v : JValue) :
    (storeData dst saved v).2.isSome = (saved.isSome || dataMismatch v) := by
  cases v with
  | object members => simp [storeData, dataMismatch, foldl_storeDataMember_err]
  | _ => cases saved <;> simp [storeData, dataMismatch, saveError]

/-- Folding the members into a `hubResponse` reports an error exactly when
one was saved before or some member selecting `data` does not fit. -/
theorem foldl_storeHubMember_err (members : List (String × JValue))
    (acc : hubResponse × Option GoError) :
    (members.foldl storeHubMember acc).2.isSome =
      (acc.2.isSome || members.any fun m => equalFold m.1 "data" && dataMismatch m.2) := by
  induction members generalizing acc with
  | nil => simp
  | cons m ms ih =>
    rw [List.foldl_cons, ih]
    by_cases h : equalFold m.1 "data" = true
    · simp [storeHubMember, h, storeData_err, Bool.or_assoc]
    · simp [storeHubMember, h]

/-- Storing into a `hubResponse` reports an error exactly when one was saved
before or the value does not fit. -/
theorem storeHub_err (dst : hubResponse) (saved : Option GoError) (v : JValue) :
    (storeHub dst saved v).2.isSome = (saved.isSome || shapeMismatch v) := by
  cases v with
  | object members => simp [storeHub, shapeMismatch, foldl_storeHubMember_err]
  | _ => cases saved <;> simp [storeHub, shapeMismatch, saveError]

/-- The decoder reports an error exactly for text that is not well formed
and for well formed text whose value does not fit `hubResponse`. -/
theorem Unmarshal_err_iff (body : String) (hr : hubResponse) :
    (Unmarshal body hr).2.isSome = true ↔
      parseJSON body = none ∨ ∃ v, parseJSON body = some v ∧ shapeMismatch v = true := by
  unfold Unmarshal
  cases h : parseJSON body with
  | none => simp
  | some v => simp [storeHub_err]

/-- A body of exactly the envelope shape decodes to its `yaml` text. -/
theorem Unmarshal_envelope (body y : String) (hr : hubResponse)
    (h : parseJSON body =
      some (JValue.object [("data", JValue.object [("yaml", JValue.string y)])])) :
    Unmarshal body hr = ({ Data := { YAML := y } }, none) := by
  have e1 : equalFold "data" "data" = true := by decide
  have e2 : equalFold "yaml" "yaml" = true := by decide
  simp [Unmarshal, h, storeHub, storeHubMember, storeData, storeDataMember, storeString, e1, e2]

/-- A run of characters without escapes decodes to itself. -/
theorem decodeUnits_chars (cs : List Char) : decodeUnits (cs.map StrUnit.char) = cs := by
  induction cs with
  | nil => rfl
  | cons c cs ih => simp [decodeUnits, ih]

/-- Inside a string literal the lexer reads plain characters (no quote, no
backslash, no control character) up to the closing quote as they are. -/
theorem lex_str_plain (cs : List Char)
    (hplain : ∀ c ∈ cs, c ≠ '"' ∧ c ≠ '\\' ∧ 0x20 ≤ c.toNat) (units : List StrUnit)
    (rest : List Char) :
    lex (LexMode.str units) (cs ++ '"' :: rest) =
      consTok (some (Token.str (String.mk (decodeUnits (units.reverse ++ cs.map StrUnit.char)))))
        (lex LexMode.top rest) := by
  induction cs generalizing units with
  | nil => simp [lex]
  | cons c cs ih =>
    have hc := hplain c (List.mem_cons_self _ _)
    have hrest : ∀ d ∈ cs, d ≠ '"' ∧ d ≠ '\\' ∧ 0x20 ≤ d.toNat :=
      fun d hd => hplain d (List.mem_cons_of_mem _ hd)
    have hlt : ¬ c.toNat < 0x20 := by omega
    rw [List.cons_append, lex]
    · simp only [hlt, if_false]
      rw [ih hrest]
      simp
    · exact hc.1
    · intro _ _ _ _ _ h _
      exact hc.2.1 h
    · intro h _
      exact hc.2.1 h
    · intro _ _ h _
      exact hc.2.1 h

/-- The envelope written around a yaml text of plain characters is well
formed and denotes the envelope value with that text. -/
theorem parseJSON_envelope (y : String)
    (hplain : ∀ c ∈ y.toList, c ≠ '"' ∧ c ≠ '\\' ∧ 0x20 ≤ c.toNat) :
    parseJSON ("\x7b\"data\":\x7b\"yaml\":\"" ++ y ++ "\"\x7d\x7d") =
      some (JValue.object [("data", JValue.object [("yaml", JValue.string y)])]) := by
  have e : ("\x7b\"data\":\x7b\"yaml\":\"" ++ y ++ "\"\x7d\x7d").toList =
      '\x7b' :: '"' :: 'd' :: 'a' :: 't' :: 'a' :: '"' :: ':' :: '\x7b' :: '"' :: 'y' :: 'a' ::
        'm' :: 'l' :: '"' :: ':' :: '"' :: (y.toList ++ '"' :: ['\x7d', '\x7d']) := by
    simp [String.toList]
  have h := lex_str_plain y.data hplain [] ['\x7d', '\x7d']
  simp only [List.reverse_nil, List.nil_append, decodeUnits_chars] at h
  unfold parseJSON
  rw [e]
  simp [lex, isSpace, isDigit, decodeUnits, consTok, h, run, step, startValue, startKey,
    complete, maxNestingDepth]

/-! ## Resolve -/

/-- What `Resolve` returns when the request fails. -/
theorem Resolve_of_get_error (remote : Remote) (r : resolver) (params : Params)
    (cause : GoError) (hget : remote (requestURL params) = Except.error cause) :
    Resolve remote r params =
      { actions := [Action.get (requestURL params)]
        resource := none
        err := some (Errorf "error requesting resource from hub: %w" cause) } := by
  unfold requestURL at hget
  simp [Resolve, requestURL, hget]

/-- What `Resolve` returns when reading the body fails. -/
theorem Resolve_of_read_error (remote : Remote) (r : resolver) (params : Params)
    (status : Nat) (cause : GoError)
    (hget : remote (requestURL params) =
      Except.ok { StatusCode := status, Body := Except.error cause }) :
    Resolve remote r params =
      { actions := [Action.get (requestURL params), Action.readAll, Action.close]
        resource := none
        err := some (Errorf "error reading response body: %w" cause) } := by
  unfold requestURL at hget
  simp [Resolve, requestURL, hget]

/-- What `Resolve` returns when decoding fails. -/
theorem Resolve_of_decode_error (remote : Remote) (r : resolver) (params : Params)
    (status : Nat) (body : String) (hr : hubResponse) (cause : GoError)
    (hget : remote (requestURL params) =
      Except.ok { StatusCode := status, Body := Except.ok body })
    (hdec : Unmarshal body zeroHubResponse = (hr, some cause)) :
    Resolve remote r params =
      { actions := [Action.get (requestURL params), Action.readAll, Action.close]
        resource := none
        err := some (Errorf "error unmarshalling json response: %w" cause) } := by
  unfold requestURL at hget
  unfold zeroHubResponse at hdec
  simp [Resolve, requestURL, hget, hdec]

/-- What `Resolve` returns when decoding succeeds. -/
theorem Resolve_of_decoded (remote : Remote) (r : resolver) (params : Params)
    (status : Nat) (body : String) (hr : hubResponse)
    (hget : remote (requestURL params) =
      Except.ok { StatusCode := status, Body := Except.ok body })
    (hdec : Unmarshal body zeroHubResponse = (hr, none)) :
    Resolve remote r params =
      { actions := [Action.get (requestURL params), Action.readAll, Action.close]
        resource := some { data := bytes hr.Data.YAML }
        err := none } := by
  unfold requestURL at hget
  unfold zeroHubResponse at hdec
  simp [Resolve, requestURL, hget, hdec]

/-- The address `Resolve` requests, written out. -/
theorem requestURL_eq (params : Params) :
    requestURL params =
      "https://api.hub.tekton.dev/v1/resource/Tekton/" ++ params.at "kind" ++ "/" ++
        params.at "name" ++ "/" ++ params.at "version" ++ "/yaml" := by
  apply String.ext
  simp [requestURL, Sprintf, defaultHubURL, sprintfLoop, extraOperands]

/-- C4 does not hold of the code: with the override http://localhost:8080 the
resolver is configured with the pattern
http://localhost:8080/v1/resource/Tekton/%s/%s/%s/yaml, which for task, demo,
0.1 gives http://localhost:8080/v1/resource/Tekton/task/demo/0.1/yaml, yet
Resolve requests the address built from the default pattern. -/
theorem Resolve_requests_default_pattern :
    (main "http://localhost:8080").resolver.hubURL =
      "http://localhost:8080/v1/resource/Tekton/%s/%s/%s/yaml" ∧
    Sprintf (main "http://localhost:8080").resolver.hubURL ["task", "demo", "0.1"] =
      "http://localhost:8080/v1/resource/Tekton/task/demo/0.1/yaml" ∧
    (∀ remote : Remote,
      (Resolve remote (main "http://localhost:8080").resolver
        [("kind", "task"), ("name", "demo"), ("version", "0.1")]).requested =
        ["https://api.hub.tekton.dev/v1/resource/Tekton/task/demo/0.1/yaml"]) := by
  refine ⟨by decide, by decide, ?_⟩
  intro remote
  have e : requestURL [("kind", "task"), ("name", "demo"), ("version", "0.1")] =
      "https://api.hub.tekton.dev/v1/resource/Tekton/task/demo/0.1/yaml" := by decide
  cases hget : remote (requestURL [("kind", "task"), ("name", "demo"), ("version", "0.1")]) with
  | error cause => rw [Resolve_of_get_error _ _ _ cause hget, e]; rfl
  | ok resp =>
    obtain ⟨status, rbody⟩ := resp
    cases rbody with
    | error cause => rw [Resolve_of_read_error _ _ _ status cause hget, e]; rfl
    | ok body =>
      cases hdec : Unmarshal body zeroHubResponse with
      | mk hr saved =>
        cases saved with
        | none => rw [Resolve_of_decoded _ _ _ status body hr hget hdec, e]; rfl
        | some cause => rw [Resolve_of_decode_error _ _ _ status body hr cause hget hdec, e]; rfl

/-- C5: when the request and the reading of the body succeed and the body
decodes without error to the yaml text y, Resolve returns no error and a
resource whose Data is the bytes of y and whose Annotations is empty, whatever
the status code of the response is; an empty y gives a resource with empty
content. -/
theorem Resolve_success (remote : Remote) (r : resolver) (params : Params)
    (status : Nat) (body y : String)
    (hget : remote (requestURL params) =
      Except.ok { StatusCode := status, Body := Except.ok body })
    (hdec : Unmarshal body zeroHubResponse = ({ Data := { YAML := y } }, none)) :
    (Resolve remote r params).err = none ∧
    ∃ rr : hubResolvedResource, (Resolve remote r params).resource = some rr ∧
      rr.Data = bytes y ∧ rr.Annotations = [] ∧ (y = "" → rr.Data = []) := by
  rw [Resolve_of_decoded remote r params status body _ hget hdec]
  refine ⟨rfl, _, rfl, rfl, rfl, ?_⟩
  intro hy
  subst hy
  decide

/-- C5 at the body with yaml text "foo: bar" for kind=task, name=demo,
version=0.1, answered with status 404: no error, content "foo: bar", no
annotations. -/
theorem Resolve_success_witness :
    (Resolve (demoRemote 404 "\x7b\"data\":\x7b\"yaml\":\"foo: bar\"\x7d\x7d")
      { hubURL := defaultHubURL } demoParams).err = none ∧
    ∃ rr : hubResolvedResource,
      (Resolve (demoRemote 404 "\x7b\"data\":\x7b\"yaml\":\"foo: bar\"\x7d\x7d")
        { hubURL := defaultHubURL } demoParams).resource = some rr ∧
      rr.Data = bytes "foo: bar" ∧ rr.Annotations = [] :=
  match Resolve_success (demoRemote 404 "\x7b\"data\":\x7b\"yaml\":\"foo: bar\"\x7d\x7d")
      { hubURL := defaultHubURL } demoParams 404
      "\x7b\"data\":\x7b\"yaml\":\"foo: bar\"\x7d\x7d" "foo: bar"
      (if_pos (by decide)) (by decide) with
  | ⟨h1, rr, h2, h3, h4, _⟩ => ⟨h1, rr, h2, h3, h4⟩

/-- C6: Resolve returns exactly one of a resource and an error.  A failed
request gives no resource and the error "error requesting resource from hub"
wrapping the cause; a failed read of the body gives no resource and the error
"error reading response body" wrapping the cause; a failed decoding gives no
resource and the error "error unmarshalling json response" wrapping the cause.
The three errors differ from one another, and every call issues exactly one
GET, to the address built from the parameters. -/
theorem Resolve_one_result (remote : Remote) (r : resolver) (params : Params) :
    ((Resolve remote r params).resource.isSome = !(Resolve remote r params).err.isSome) ∧
    (∀ cause : GoError, remote (requestURL params) = Except.error cause →
      (Resolve remote r params).resource = none ∧
      (Resolve remote r params).err =
        some (Errorf "error requesting resource from hub: %w" cause) ∧
      (Errorf "error requesting resource from hub: %w" cause).Unwrap = some cause) ∧
    (∀ (status : Nat) (cause : GoError),
      remote (requestURL params) =
        Except.ok { StatusCode := status, Body := Except.error cause } →
      (Resolve remote r params).resource = none ∧
      (Resolve remote r params).err = some (Errorf "error reading response body: %w" cause) ∧
      (Errorf "error reading response body: %w" cause).Unwrap = some cause) ∧
    (∀ (status : Nat) (body : String) (hr : hubResponse) (cause : GoError),
      remote (requestURL params) =
        Except.ok { StatusCode := status, Body := Except.ok body } →
      Unmarshal body zeroHubResponse = (hr, some cause) →
      (Resolve remote r params).resource = none ∧
      (Resolve remote r params).err =
        some (Errorf "error unmarshalling json response: %w" cause) ∧
      (Errorf "error unmarshalling json response: %w" cause).Unwrap = some cause) ∧
    (∀ c1 c2 c3 : GoError,
      Errorf "error requesting resource from hub: %w" c1 ≠
        Errorf "error reading response body: %w" c2 ∧
      Errorf "error requesting resource from hub: %w" c1 ≠
        Errorf "error unmarshalling json response: %w" c3 ∧
      Errorf "error reading response body: %w" c2 ≠
        Errorf "error unmarshalling json response: %w" c3) ∧
    (Resolve remote r params).requested = [requestURL params] := by
  refine ⟨?_, ?_, ?_, ?_, ?_, ?_⟩
  · cases hget : remote (requestURL params) with
    | error cause => rw [Resolve_of_get_error _ _ _ cause hget]; rfl
    | ok resp =>
      obtain ⟨status, rbody⟩ := resp
      cases rbody with
      | error cause => rw [Resolve_of_read_error _ _ _ status cause hget]; rfl
      | ok body =>
        cases hdec : Unmarshal body zeroHubResponse with
        | mk hr saved =>
          cases saved with
          | none => rw [Resolve_of_decoded _ _ _ status body hr hget hdec]; rfl
          | some cause => rw [Resolve_of_decode_error _ _ _ status body hr cause hget hdec]; rfl
  · intro cause hget
    rw [Resolve_of_get_error _ _ _ cause hget]
    exact ⟨rfl, rfl, rfl⟩
  · intro status cause hget
    rw [Resolve_of_read_error _ _ _ status cause hget]
    exact ⟨rfl, rfl, rfl⟩
  · intro status body hr cause hget hdec
    rw [Resolve_of_decode_error _ _ _ status body hr cause hget hdec]
    exact ⟨rfl, rfl, rfl⟩
  · intro c1 c2 c3
    refine ⟨?_, ?_, ?_⟩ <;>
    · intro h
      have hf := (GoError.errorf.injEq _ _ _ _).mp h
      exact absurd hf.1 (by decide)
  · cases hget : remote (requestURL params) with
    | error cause => rw [Resolve_of_get_error _ _ _ cause hget]; rfl
    | ok resp =>
      obtain ⟨status, rbody⟩ := resp
      cases rbody with
      | error cause => rw [Resolve_of_read_error _ _ _ status cause hget]; rfl
      | ok body =>
        cases hdec : Unmarshal body zeroHubResponse with
        | mk hr saved =>
          cases saved with
          | none => rw [Resolve_of_decoded _ _ _ status body hr hget hdec]; rfl
          | some cause => rw [Resolve_of_decode_error _ _ _ status body hr cause hget hdec]; rfl

/-- C6 at a remote side that refuses the connection: no resource, the request
error wrapping the cause. -/
theorem Resolve_one_result_witness :
    (Resolve (fun _ => Except.error (GoError.external "connection refused"))
        { hubURL := defaultHubURL } demoParams).resource = none ∧
    (Resolve (fun _ => Except.error (GoError.external "connection refused"))
        { hubURL := defaultHubURL } demoParams).err =
      some (Errorf "error requesting resource from hub: %w"
        (GoError.external "connection refused")) :=
  match (Resolve_one_result (fun _ => Except.error (GoError.external "connection refused"))
      { hubURL := defaultHubURL } demoParams).2.1 (GoError.external "connection refused") rfl with
  | ⟨h1, h2, _⟩ => ⟨h1, h2⟩

/-- The string stored by `storeString`. -/
theorem storeString_val (dst : String) (saved : Option GoError) (v : JValue) :
    (storeString dst saved v).1 = (match v with | JValue.string s => s | _ => dst) := by
  cases v <;> rfl

/-- The text left by folding the members into a `dataResponse`. -/
theorem foldl_storeDataMember_val (members : List (String × JValue))
    (acc : dataResponse × Option GoError) :
    (members.foldl storeDataMember acc).1.YAML = members.foldl yamlStep acc.1.YAML := by
  induction members generalizing acc with
  | nil => rfl
  | cons m ms ih =>
    rw [List.foldl_cons, List.foldl_cons, ih]
    by_cases h : equalFold m.1 "yaml" = true
    · simp [storeDataMember, yamlStep, h, storeString_val]
    · simp [storeDataMember, yamlStep, h]

/-- The text left by storing a value into a `dataResponse`. -/
theorem storeData_val (dst : dataResponse) (saved : Option GoError) (v : JValue) :
    (storeData dst saved v).1.YAML = dataText dst.YAML v := by
  cases v with
  | object members => simp [storeData, dataText, foldl_storeDataMember_val]
  | _ => rfl

/-- The text left by folding the members into a `hubResponse`. -/
theorem foldl_storeHubMember_val (members : List (String × JValue))
    (acc : hubResponse × Option GoError) :
    (members.foldl storeHubMember acc).1.Data.YAML = members.foldl dataStep acc.1.Data.YAML := by
  induction members generalizing acc with
  | nil => rfl
  | cons m ms ih =>
    rw [List.foldl_cons, List.foldl_cons, ih]
    by_cases h : equalFold m.1 "data" = true
    · simp [storeHubMember, dataStep, h, storeData_val]
    · simp [storeHubMember, dataStep, h]

/-- The text left by storing a value into the zero `hubResponse`. -/
theorem storeHub_val (saved : Option GoError) (v : JValue) :
    (storeHub zeroHubResponse saved v).1.Data.YAML = yamlText v := by
  cases v with
  | object members =>
    simp [storeHub, yamlText, foldl_storeHubMember_val, zeroHubResponse]
  | _ => rfl

/-- Members without a yaml string leave the text as it is. -/
theorem foldl_yamlStep_none (members : List (String × JValue)) (cur : String)
    (h : (members.any fun m => equalFold m.1 "yaml" && isString m.2) = false) :
    members.foldl yamlStep cur = cur := by
  induction members generalizing cur with
  | nil => rfl
  | cons m ms ih =>
    rw [List.any_cons, Bool.or_eq_false_iff] at h
    rw [List.foldl_cons, ih _ h.2]
    by_cases hk : equalFold m.1 "yaml" = true
    · have hs : isString m.2 = false := by simpa [hk] using h.1
      cases hv : m.2 <;> simp [yamlStep, hk, hv, isString] at hs ⊢
    · simp [yamlStep, hk]

/-- A value under `data` without a yaml string leaves the text as it is. -/
theorem dataText_none (v : JValue) (cur : String) (h : dataHasYamlString v = false) :
    dataText cur v = cur := by
  cases v with
  | object members => exact foldl_yamlStep_none members cur h
  | _ => rfl

/-- Members without a yaml string under `data` leave the text as it is. -/
theorem foldl_dataStep_none (members : List (String × JValue)) (cur : String)
    (h : (members.any fun m => equalFold m.1 "data" && dataHasYamlString m.2) = false) :
    members.foldl dataStep cur = cur := by
  induction members generalizing cur with
  | nil => rfl
  | cons m ms ih =>
    rw [List.any_cons, Bool.or_eq_false_iff] at h
    rw [List.foldl_cons, ih _ h.2]
    by_cases hk : equalFold m.1 "data" = true
    · have hs : dataHasYamlString m.2 = false := by simpa [hk] using h.1
      simp [dataStep, hk, dataText_none _ _ hs]
    · simp [dataStep, hk]

/-- A body's value without a yaml string has the empty yaml text. -/
theorem yamlText_none (v : JValue) (h : hasYamlString v = false) : yamlText v = "" := by
  cases v with
  | object members => exact foldl_dataStep_none members "" h
  | _ => rfl

/-- The yaml text of a body of exactly the envelope shape is its yaml string. -/
theorem yamlText_envelope (y : String) :
    yamlText (JValue.object [("data", JValue.object [("yaml", JValue.string y)])]) = y := by
  have e1 : equalFold "data" "data" = true := by decide
  have e2 : equalFold "yaml" "yaml" = true := by decide
  simp [yamlText, dataStep, dataText, yamlStep, e1, e2]

/-- The text the decoder extracts from a well formed body. -/
theorem Unmarshal_val (body : String) (v : JValue) (h : parseJSON body = some v) :
    (Unmarshal body zeroHubResponse).1.Data.YAML = yamlText v := by
  simp [Unmarshal, h, storeHub_val]

/-- C7 fails as stated: the bodies made of an empty object, of an object whose
data member is an empty object, and of null are well formed JSON without the
envelope shape, and for each of them Resolve returns a resource with empty
content and no error. -/
theorem Resolve_accepts_other_shapes :
    (parseJSON "\x7b\x7d" = some (JValue.object []) ∧
      Resolve (demoRemote 200 "\x7b\x7d") { hubURL := defaultHubURL } demoParams =
        { actions := [Action.get "https://api.hub.tekton.dev/v1/resource/Tekton/task/demo/0.1/yaml",
                      Action.readAll, Action.close]
          resource := some { data := [] }
          err := none }) ∧
    (parseJSON "\x7b\"data\":\x7b\x7d\x7d" = some (JValue.object [("data", JValue.object [])]) ∧
      Resolve (demoRemote 200 "\x7b\"data\":\x7b\x7d\x7d") { hubURL := defaultHubURL }
          demoParams =
        { actions := [Action.get "https://api.hub.tekton.dev/v1/resource/Tekton/task/demo/0.1/yaml",
                      Action.readAll, Action.close]
          resource := some { data := [] }
          err := none }) ∧
    (parseJSON "null" = some JValue.null ∧
      Resolve (demoRemote 200 "null") { hubURL := defaultHubURL } demoParams =
        { actions := [Action.get "https://api.hub.tekton.dev/v1/resource/Tekton/task/demo/0.1/yaml",
                      Action.readAll, Action.close]
          resource := some { data := [] }
          err := none }) := by
  refine ⟨⟨rfl, by decide⟩, ⟨rfl, by decide⟩, ⟨rfl, by decide⟩⟩

/-- C7 as amended: once the request and the reading of the body succeed,
Resolve fails with the decode error and returns no resource when the body is
not well formed JSON, or is well formed and its value is neither an object
nor null, or has a member selecting data (key equal to "data" up to the case
of letters) whose value is neither an object nor null, or has in such a data
object a member selecting yaml whose value is neither a string nor null.
Every other well formed body, such as an empty object or null, is accepted:
Resolve returns no error and a resource whose content is the bytes of the
body's yaml text, which is the empty content when no yaml string is present. -/
theorem Resolve_decode_error (remote : Remote) (r : resolver) (params : Params)
    (status : Nat) (body : String)
    (hget : remote (requestURL params) =
      Except.ok { StatusCode := status, Body := Except.ok body }) :
    ((parseJSON body = none ∨ ∃ v, parseJSON body = some v ∧ shapeMismatch v = true) →
      (Resolve remote r params).resource = none ∧
      ∃ cause : GoError, (Resolve remote r params).err =
        some (Errorf "error unmarshalling json response: %w" cause)) ∧
    (¬ (parseJSON body = none ∨ ∃ v, parseJSON body = some v ∧ shapeMismatch v = true) →
      (Resolve remote r params).err = none ∧
      (Resolve remote r params).resource.isSome = true ∧
      ∃ v, parseJSON body = some v ∧
        (Resolve remote r params).resource = some { data := bytes (yamlText v) } ∧
        (hasYamlString v = false →
          (Resolve remote r params).resource = some { data := [] })) := by
  have hiff := Unmarshal_err_iff body zeroHubResponse
  cases hdec : Unmarshal body zeroHubResponse with
  | mk hr saved =>
    rw [hdec] at hiff
    cases saved with
    | none =>
      rw [Resolve_of_decoded _ _ _ status body hr hget hdec]
      refine ⟨fun h => ?_, fun h => ⟨rfl, rfl, ?_⟩⟩
      · have := hiff.mpr h
        simp at this
      · cases hp : parseJSON body with
        | none => exact absurd (Or.inl hp) h
        | some v =>
          have hval := Unmarshal_val body v hp
          rw [hdec] at hval
          have hval2 : hr.Data.YAML = yamlText v := hval
          refine ⟨v, rfl, by rw [hval2], ?_⟩
          intro hno
          rw [hval2, yamlText_none v hno]
          have hb : bytes "" = [] := by decide
          rw [hb]
    | some cause =>
      rw [Resolve_of_decode_error _ _ _ status body hr cause hget hdec]
      refine ⟨fun _ => ⟨rfl, cause, rfl⟩, fun h => ?_⟩
      exact absurd (hiff.mp rfl) h

/-- The amended C7 at a body that is not JSON and at a body whose data member
is a number, which both fail with the decode error and give no resource, and
at a body whose data object has no yaml member, which is accepted with empty
content. -/
theorem Resolve_decode_error_witness :
    ((Resolve (demoRemote 200 "not json") { hubURL := defaultHubURL } demoParams).resource =
        none ∧
      ∃ cause : GoError,
        (Resolve (demoRemote 200 "not json") { hubURL := defaultHubURL } demoParams).err =
          some (Errorf "error unmarshalling json response: %w" cause)) ∧
    ((Resolve (demoRemote 200 "\x7b\"data\": 5\x7d") { hubURL := defaultHubURL }
        demoParams).resource = none ∧
      ∃ cause : GoError,
        (Resolve (demoRemote 200 "\x7b\"data\": 5\x7d") { hubURL := defaultHubURL }
          demoParams).err =
          some (Errorf "error unmarshalling json response: %w" cause)) ∧
    ((Resolve (demoRemote 200 "\x7b\"data\":\x7b\"other\":1\x7d\x7d") { hubURL := defaultHubURL }
        demoParams).err = none ∧
      (Resolve (demoRemote 200 "\x7b\"data\":\x7b\"other\":1\x7d\x7d") { hubURL := defaultHubURL }
        demoParams).resource = some { data := [] }) := by
  refine ⟨(Resolve_decode_error _ _ _ 200 "not json" (if_pos (by decide))).1 (Or.inl rfl),
    (Resolve_decode_error _ _ _ 200 "\x7b\"data\": 5\x7d" (if_pos (by decide))).1
      (Or.inr ⟨JValue.object [("data", JValue.number "5")], rfl, rfl⟩), ?_⟩
  have hp : parseJSON "\x7b\"data\":\x7b\"other\":1\x7d\x7d" =
      some (JValue.object [("data", JValue.object [("other", JValue.number "1")])]) := rfl
  have hok : ¬ (parseJSON "\x7b\"data\":\x7b\"other\":1\x7d\x7d" = none ∨
      ∃ v, parseJSON "\x7b\"data\":\x7b\"other\":1\x7d\x7d" = some v ∧
        shapeMismatch v = true) := by
    rw [hp]
    rintro (h | ⟨v, hv, hm⟩)
    · exact Option.noConfusion h
    · cases hv
      exact absurd hm (by decide)
  obtain ⟨herr, -, v, hv, -, hempty⟩ :=
    (Resolve_decode_error (demoRemote 200 "\x7b\"data\":\x7b\"other\":1\x7d\x7d")
      { hubURL := defaultHubURL } demoParams 200 "\x7b\"data\":\x7b\"other\":1\x7d\x7d"
      (if_pos (by decide))).2 hok
  rw [hp] at hv
  cases hv
  exact ⟨herr, hempty rfl⟩

end HubResolver
